import Mathlib

/-!
Verification of the github-ai-commit-reporter repository.

This file gives a shallow embedding, in Lean 4, of the parts of the
JavaScript source that the specification's claims are about:

* `GitHubService` (src/app/services/GitHubService.js): repository URL
  resolution, paginated commit retrieval, date-range and single-date
  retrieval, per-commit detail amplification;
* `QuickReporter` (src/unnamed/part_002, class QuickGitHubCommitReporter):
  the alternative pagination loop with its lenient failure handling;
* `Commit` model (src/unnamed/part_001, class Commit): the normalizing
  constructor and derived accessors;
* `CommitController.getCommitStatistics` (src/unnamed/part_003) and the
  `Report` model's rollups (src/app/models/Report.js);
* `ReportService` (src/unnamed/part_004): quick/enhanced report generation,
  the heuristic commit analysis, and filename synthesis;
* `AIAnalysisService.generateBasicAnalysis` (src/unnamed/part_006), which is
  textually identical to `ReportService.generateBasicAnalysis`;
* `ReportView` (src/unnamed/part_001): filename synthesis and the format
  extension map.

Network calls are modelled by explicit oracles (functions from request
parameters to `Except`-valued responses); JavaScript exceptions are
modelled by `Except String`; JavaScript `null` returns by `Option`.
-/

/-! ## JavaScript string primitives -/

/-- Substring test on character lists: does `pat` occur contiguously in
`hay`?  This is the model of JavaScript `String.prototype.includes`. -/
def isSubChars (pat : List Char) : List Char → Bool
  | [] => pat.isEmpty
  | c :: t => pat.isPrefixOf (c :: t) || isSubChars pat t

/-- JavaScript `hay.includes(needle)`. -/
def jsIncludes (hay needle : String) : Bool :=
  isSubChars needle.data hay.data

/-- Remove the first occurrence of `pat` from a character list; if `pat`
does not occur, the list is unchanged.  Models JavaScript
`str.replace(pat, '')`, which replaces only the first occurrence. -/
def removeFirstChars (pat : List Char) : List Char → List Char
  | [] => []
  | c :: t =>
    if pat.isPrefixOf (c :: t) then (c :: t).drop pat.length
    else c :: removeFirstChars pat t

/-- JavaScript `s.replace(pat, '')` (first occurrence only). -/
def jsReplaceEmpty (s pat : String) : String :=
  ⟨removeFirstChars pat.data s.data⟩

/-- JavaScript `s.startsWith(pre)`. -/
def jsStartsWith (s pre : String) : Bool :=
  pre.data.isPrefixOf s.data

/-- Whitespace characters stripped by `String.prototype.trim`. -/
def isWsChar (c : Char) : Bool :=
  c == ' ' || c == '\t' || c == '\n' || c == '\r'

/-- JavaScript `s.trim()`: strip whitespace from both ends. -/
def jsTrim (s : String) : String :=
  ⟨((s.data.dropWhile isWsChar).reverse.dropWhile isWsChar).reverse⟩

/-- JavaScript `s.toLowerCase()` (ASCII behaviour). -/
def jsToLower (s : String) : String :=
  ⟨s.data.map Char.toLower⟩

/-- Split a character list on a single separator character, JavaScript
`String.prototype.split` semantics: `"".split(c)` is `[""]`, a trailing
separator yields a trailing empty segment. -/
def splitChars (sep : Char) : List Char → List (List Char)
  | [] => [[]]
  | c :: t =>
    let r := splitChars sep t
    if c = sep then [] :: r
    else
      match r with
      | h :: t2 => (c :: h) :: t2
      | [] => [[c]]

/-- JavaScript `s.split(sep)` for a one-character separator. -/
def jsSplit (s : String) (sep : Char) : List String :=
  (splitChars sep s.data).map (fun l => ⟨l⟩)

/-- The numeric value of a decimal digit character. -/
def digitVal (c : Char) : Option Nat :=
  if '0' ≤ c ∧ c ≤ '9' then some (c.toNat - 48) else none

/-- Parse a non-empty all-digit character list as a natural number. -/
def parseNatChars (l : List Char) : Option Nat :=
  if l.isEmpty then none
  else
    l.foldl
      (fun acc c =>
        match acc, digitVal c with
        | some n, some d => some (n * 10 + d)
        | _, _ => none)
      (some 0)

/-! ## Data model (src/unnamed/part_001, class Commit) -/

/-- One file's delta inside a commit, as produced by the detail-endpoint
normalization in `GitHubService.getCommitDetails`. -/
structure FileChange where
  filename : String
  status : String
  additions : Int
  deletions : Int
  changes : Int
deriving DecidableEq, Inhabited

/-- The `stats` sub-object of a commit. -/
structure CommitStats where
  total : Int
  additions : Int
  deletions : Int
deriving DecidableEq, Inhabited

/-- Name/email/date triple used for author and committer. -/
structure Person where
  name : String
  email : String
  date : String
deriving DecidableEq, Inhabited

/-- The normalized commit record (class `Commit` in src/unnamed/part_001). -/
structure Commit where
  sha : String
  message : String
  author : Person
  committer : Person
  files : List FileChange
  stats : CommitStats
deriving DecidableEq, Inhabited

/-- Optional `stats` field of raw constructor input (`data.stats`). -/
structure StatsData where
  total : Option Int
  additions : Option Int
  deletions : Option Int
deriving DecidableEq, Inhabited

/-- Optional author/committer field of raw constructor input. -/
structure PersonData where
  name : Option String
  email : Option String
  date : Option String
deriving DecidableEq, Inhabited

/-- Raw input to the `Commit` constructor (`new Commit(data)`); every field
may be absent, modelling JavaScript `data.x || default` /
`data.x?.y || default` access. -/
structure CommitData where
  sha : Option String
  message : Option String
  author : Option PersonData
  committer : Option PersonData
  files : Option (List FileChange)
  stats : Option StatsData
deriving DecidableEq, Inhabited

/-- The `Commit` constructor (src/unnamed/part_001, lines 455-475): every
field is copied from the input with a falsy-default; in particular
`stats.total` is `data.stats?.total || 0`, taken as given — there is no
check relating it to `additions + deletions`. -/
def Commit.ofData (d : CommitData) : Commit where
  sha := d.sha.getD ""
  message := d.message.getD ""
  author :=
    { name := (d.author.bind PersonData.name).getD ""
      email := (d.author.bind PersonData.email).getD ""
      date := (d.author.bind PersonData.date).getD "" }
  committer :=
    { name := (d.committer.bind PersonData.name).getD ""
      email := (d.committer.bind PersonData.email).getD ""
      date := (d.committer.bind PersonData.date).getD "" }
  files := d.files.getD []
  stats :=
    { total := (d.stats.bind StatsData.total).getD 0
      additions := (d.stats.bind StatsData.additions).getD 0
      deletions := (d.stats.bind StatsData.deletions).getD 0 }

/-- `Commit.getNetChanges`: additions minus deletions; computed from the
two components, never from the stored `total`. -/
def Commit.getNetChanges (c : Commit) : Int :=
  c.stats.additions - c.stats.deletions

/-- `Commit.getTotalFileChanges`: sum of per-file `changes`. -/
def Commit.getTotalFileChanges (c : Commit) : Int :=
  c.files.foldl (fun acc f => acc + f.changes) 0

/-- `Commit.toJSON` emits the stored fields verbatim; in particular the
`stats` object is passed through unchanged. -/
def Commit.toJSON (c : Commit) : CommitData where
  sha := some c.sha
  message := some c.message
  author := some ⟨some c.author.name, some c.author.email, some c.author.date⟩
  committer := some ⟨some c.committer.name, some c.committer.email, some c.committer.date⟩
  files := some c.files
  stats := some ⟨some c.stats.total, some c.stats.additions, some c.stats.deletions⟩

/-! ## Calendar dates (moment(date).add(1, 'day').format('YYYY-MM-DD')) -/

/-- A parsed `YYYY-MM-DD` calendar date. -/
structure Ymd where
  year : Nat
  month : Nat
  day : Nat
deriving DecidableEq, Inhabited

/-- Gregorian leap-year rule (as implemented by moment.js). -/
def isLeapYear (y : Nat) : Bool :=
  (y % 4 == 0 && y % 100 != 0) || y % 400 == 0

/-- Number of days in a month. -/
def daysInMonth (y m : Nat) : Nat :=
  if m = 2 then (if isLeapYear y then 29 else 28)
  else if m = 4 || m = 6 || m = 9 || m = 11 then 30
  else 31

/-- Adding one calendar day to a date. -/
def addOneDay (d : Ymd) : Ymd :=
  if d.day < daysInMonth d.year d.month then ⟨d.year, d.month, d.day + 1⟩
  else if d.month < 12 then ⟨d.year, d.month + 1, 1⟩
  else ⟨d.year + 1, 1, 1⟩

/-- Left-pad a number to two digits. -/
def pad2 (n : Nat) : String :=
  if n < 10 then "0" ++ toString n else toString n

/-- Left-pad a number to four digits. -/
def pad4 (n : Nat) : String :=
  if n < 10 then "000" ++ toString n
  else if n < 100 then "00" ++ toString n
  else if n < 1000 then "0" ++ toString n
  else toString n

/-- Format a date as `YYYY-MM-DD`. -/
def formatYmd (d : Ymd) : String :=
  pad4 d.year ++ "-" ++ pad2 d.month ++ "-" ++ pad2 d.day

/-- Parse a `YYYY-MM-DD` string. -/
def parseYmd (s : String) : Option Ymd :=
  match jsSplit s '-' with
  | [y, m, d] =>
    match parseNatChars y.data, parseNatChars m.data, parseNatChars d.data with
    | some yn, some mn, some dn => some ⟨yn, mn, dn⟩
    | _, _, _ => none
  | _ => none

/-- `moment(date).add(1, 'day').format('YYYY-MM-DD')`: add one day to a
date string.  An unparsable input renders as moment's "Invalid date". -/
def addOneDayStr (s : String) : String :=
  match parseYmd s with
  | some d => formatYmd (addOneDay d)
  | none => "Invalid date"

/-! ## GitHubService (src/app/services/GitHubService.js) -/

namespace GitHubService

/-- `GitHubService.extractRepoInfo` (lines 25-44): resolve a repository
URL to `(owner, repo)`.  Notes on JavaScript semantics preserved here:
`replace(pat, '')` removes only the first occurrence, and the source's
`.trim('/')` is `String.prototype.trim`, which ignores its argument and
strips whitespace only. -/
def extractRepoInfo (repoUrl : String) : Except String (String × String) :=
  let partsE : Except String (List String) :=
    if jsStartsWith repoUrl "https://github.com/" then
      .ok (jsSplit (jsTrim (jsReplaceEmpty repoUrl "https://github.com/")) '/')
    else if jsStartsWith repoUrl "git@github.com:" then
      .ok (jsSplit (jsReplaceEmpty (jsReplaceEmpty repoUrl "git@github.com:") ".git") '/')
    else
      .error "Invalid GitHub repository URL format"
  match partsE with
  | .error e => .error e
  | .ok parts =>
    match parts with
    | [owner, second] => .ok (owner, jsReplaceEmpty second ".git")
    | _ => .error "Invalid GitHub repository URL. Expected format: owner/repo"

/-- The query options assembled by `getCommitsForDateRange` (lines
155-168) and spread into every page request of `getCommits`. -/
structure CommitOptions where
  since : Option String
  untilDate : Option String
  branch : Option String
  author : Option String
deriving DecidableEq, Inhabited

/-- `GitHubService.getCommitDetails` (lines 194-232), over an oracle
`detail` that models the HTTP GET of one commit plus the normalization of
its response body.  A failed request is re-thrown as an
`Error fetching commit details` error — it is never swallowed. -/
def getCommitDetails (detail : String → Except String Commit) (sha : String) :
    Except String Commit :=
  match detail sha with
  | .ok c => .ok c
  | .error e => .error ("Error fetching commit details for " ++ sha ++ ": " ++ e)

/-- The per-page detail loop inside `getCommits` (lines 123-128): details
are fetched sequentially; the first failure escapes as an exception (to be
caught by the surrounding catch of `getCommits`). -/
def detailLoop (detail : String → Except String Commit) :
    List String → Except String (List Commit)
  | [] => .ok []
  | s :: rest =>
    match getCommitDetails detail s with
    | .error e => .error e
    | .ok c =>
      match detailLoop detail rest with
      | .error e => .error e
      | .ok cs => .ok (c :: cs)

/-- The pagination loop of `GitHubService.getCommits` (lines 97-143).
`listPage` models the page-listing HTTP GET (returning the SHAs of one
page).  Both a failed page listing and a failed detail fetch land in the
same catch block, which re-throws `Error fetching commits: ...` — a hard
failure that discards everything accumulated.  `fuel` bounds the
source's unbounded `while (true)` page loop; every terminating run of the
source corresponds to a large-enough fuel. -/
def getCommitsLoop (listPage : Nat → Except String (List String))
    (detail : String → Except String Commit) (perPage : Nat) :
    Nat → Nat → List Commit → Except String (List Commit)
  | 0, _, acc => .ok acc
  | fuel + 1, page, acc =>
    match listPage page with
    | .error e => .error ("Error fetching commits: " ++ e)
    | .ok pageCommits =>
      if pageCommits.isEmpty then .ok acc
      else
        match detailLoop detail pageCommits with
        | .error e => .error ("Error fetching commits: " ++ e)
        | .ok cs =>
          let acc' := acc ++ cs
          if pageCommits.length < perPage then .ok acc'
          else getCommitsLoop listPage detail perPage fuel (page + 1) acc'

/-- `GitHubService.getCommits` with the default page size 100, over an
upstream oracle mapping query options and page number to a page of SHAs. -/
def getCommits (upstream : CommitOptions → Nat → Except String (List String))
    (detail : String → Except String Commit) (opts : CommitOptions) (fuel : Nat) :
    Except String (List Commit) :=
  getCommitsLoop (upstream opts) detail 100 fuel 1 []

/-- The options record built by `getCommitsForDateRange` (lines 155-168):
`since` is the caller's from-date and `untilDate` is the caller's to-date,
both passed through unchanged. -/
def rangeOptions (fromDate toDate branch : String) (author : Option String) :
    CommitOptions :=
  { since := some fromDate, untilDate := some toDate,
    branch := some branch, author := author }

/-- `GitHubService.getCommitsForDateRange` (lines 155-168). -/
def getCommitsForDateRange (upstream : CommitOptions → Nat → Except String (List String))
    (detail : String → Except String Commit)
    (fromDate toDate branch : String) (author : Option String) (fuel : Nat) :
    Except String (List Commit) :=
  getCommits upstream detail (rangeOptions fromDate toDate branch author) fuel

/-- `GitHubService.getCommitsForDate` (lines 179-185): the single-date
operation derives `toDate = date + 1 day` and delegates to the range
operation. -/
def getCommitsForDate (upstream : CommitOptions → Nat → Except String (List String))
    (detail : String → Except String Commit)
    (date branch : String) (author : Option String) (fuel : Nat) :
    Except String (List Commit) :=
  getCommitsForDateRange upstream detail date (addOneDayStr date) branch author fuel

end GitHubService

/-! ## QuickGitHubCommitReporter (src/unnamed/part_002) -/

namespace QuickReporter

/-- `QuickGitHubCommitReporter.getCommitDetails` (part_002 lines 126-164):
unlike the `GitHubService` version, a failed detail fetch is logged and
`null` is returned. -/
def getCommitDetails (detail : String → Except String Commit) (sha : String) :
    Option Commit :=
  (detail sha).toOption

/-- The pagination loop of `QuickGitHubCommitReporter.getCommitsForDate`
(part_002 lines 57-117): a `null` from a detail fetch is skipped (that
commit is dropped), and a failed page listing breaks the loop, returning
the commits accumulated so far — no exception escapes. -/
def getCommitsLoop (listPage : Nat → Except String (List String))
    (detail : String → Except String Commit) (perPage : Nat) :
    Nat → Nat → List Commit → List Commit
  | 0, _, acc => acc
  | fuel + 1, page, acc =>
    match listPage page with
    | .error _ => acc
    | .ok pageCommits =>
      if pageCommits.isEmpty then acc
      else
        let acc' := acc ++ pageCommits.filterMap (getCommitDetails detail)
        if pageCommits.length < perPage then acc'
        else getCommitsLoop listPage detail perPage fuel (page + 1) acc'

/-- `QuickGitHubCommitReporter.getCommitsForDate`, page size hardcoded to
100 in the source. -/
def getCommitsForDate (listPage : Nat → Except String (List String))
    (detail : String → Except String Commit) (fuel : Nat) : List Commit :=
  getCommitsLoop listPage detail 100 fuel 1 []

end QuickReporter

/-! ## Aggregation (src/unnamed/part_003 CommitController.getCommitStatistics
and src/app/models/Report.js) -/

/-- One entry of the contributor rollup. -/
structure ContribStat where
  name : String
  email : String
  commits : Nat
  additions : Int
  deletions : Int
deriving DecidableEq, Inhabited

/-- One entry of the per-file rollup. -/
structure FileStat where
  filename : String
  changes : Int
  additions : Int
  deletions : Int
  commits : Nat
deriving DecidableEq, Inhabited

/-- Fold one commit into the contributor map.  The JavaScript source keys a
plain object by author name; for the non-numeric keys arising here, object
iteration order is insertion order, so the map is modelled as a list in
first-seen order with in-place updates. -/
def addContribution (cs : List ContribStat) (c : Commit) : List ContribStat :=
  if cs.any (fun x => x.name == c.author.name) then
    cs.map (fun x =>
      if x.name == c.author.name then
        { x with commits := x.commits + 1,
                 additions := x.additions + c.stats.additions,
                 deletions := x.deletions + c.stats.deletions }
      else x)
  else
    cs ++ [{ name := c.author.name, email := c.author.email, commits := 1,
             additions := c.stats.additions, deletions := c.stats.deletions }]

/-- The contributor grouping pass shared by
`CommitController.getCommitStatistics` and `Report.getTopContributors`
(identical loops in both sources). -/
def collectContributors (commits : List Commit) : List ContribStat :=
  commits.foldl addContribution []

/-- Fold one file delta into the per-file map (same keyed-object pattern). -/
def addFileStat (fs : List FileStat) (f : FileChange) : List FileStat :=
  if fs.any (fun x => x.filename == f.filename) then
    fs.map (fun x =>
      if x.filename == f.filename then
        { x with changes := x.changes + f.changes,
                 additions := x.additions + f.additions,
                 deletions := x.deletions + f.deletions,
                 commits := x.commits + 1 }
      else x)
  else
    fs ++ [{ filename := f.filename, changes := f.changes,
             additions := f.additions, deletions := f.deletions, commits := 1 }]

/-- The per-file grouping pass shared by
`CommitController.getCommitStatistics` and `Report.getFileStatistics`:
nested iteration over every commit's files. -/
def collectFileStats (commits : List Commit) : List FileStat :=
  commits.foldl (fun acc c => c.files.foldl addFileStat acc) []

/-- The sorted (descending by commit count) contributor rollup: the model
of `.sort((a, b) => b.commits - a.commits)`.  JavaScript `Array.sort` is
stable and this comparator is a consistent total preorder, so its result
is exactly the stable insertion sort under `b.commits ≤ a.commits`. -/
def sortContributors (cs : List ContribStat) : List ContribStat :=
  cs.insertionSort (fun a b => b.commits ≤ a.commits)

/-- The sorted (descending by total changes) file rollup: the model of
`.sort((a, b) => b.changes - a.changes)`, by the same stable-sort
argument. -/
def sortFileStats (fs : List FileStat) : List FileStat :=
  fs.insertionSort (fun a b => b.changes ≤ a.changes)

/-- `Math.round(num / den)` on integers with `den > 0`: round half toward
positive infinity. -/
def jsRoundDiv (num den : Int) : Int :=
  Int.fdiv (2 * num + den) (2 * den)

/-- The record returned by `CommitController.getCommitStatistics`. -/
structure Statistics where
  totalCommits : Nat
  totalAdditions : Int
  totalDeletions : Int
  netChanges : Int
  averageChangesPerCommit : Int
  topContributors : List ContribStat
  fileStatistics : List FileStat
deriving DecidableEq, Inhabited

/-- Sum of `stats.additions` over a commit list. -/
def sumAdditions (commits : List Commit) : Int :=
  commits.foldl (fun acc c => acc + c.stats.additions) 0

/-- Sum of `stats.deletions` over a commit list. -/
def sumDeletions (commits : List Commit) : Int :=
  commits.foldl (fun acc c => acc + c.stats.deletions) 0

namespace CommitController

/-- `CommitController.getCommitStatistics` (src/unnamed/part_003, lines
156-232).  Note the `.slice(0, 5)` on `topContributors` and the
`.slice(0, 10)` on `fileStatistics`: both truncations happen inside this
aggregation function itself. -/
def getCommitStatistics (commits : List Commit) : Statistics :=
  if commits.isEmpty then
    { totalCommits := 0, totalAdditions := 0, totalDeletions := 0,
      netChanges := 0, averageChangesPerCommit := 0,
      topContributors := [], fileStatistics := [] }
  else
    let totalAdditions := sumAdditions commits
    let totalDeletions := sumDeletions commits
    { totalCommits := commits.length
      totalAdditions := totalAdditions
      totalDeletions := totalDeletions
      netChanges := totalAdditions - totalDeletions
      averageChangesPerCommit :=
        jsRoundDiv (totalAdditions + totalDeletions) (Int.ofNat commits.length)
      topContributors := (sortContributors (collectContributors commits)).take 5
      fileStatistics := (sortFileStats (collectFileStats commits)).take 10 }

end CommitController

namespace Report

/-- `Report.getTopContributors(limit)` (src/app/models/Report.js, lines
102-125): grouped, sorted descending by commit count, then truncated to
`limit` (the source's default argument is 5). -/
def getTopContributors (commits : List Commit) (limit : Nat) : List ContribStat :=
  (sortContributors (collectContributors commits)).take limit

/-- `Report.getFileStatistics` (src/app/models/Report.js, lines 131-155):
grouped and sorted descending by total changes — returned whole, with no
truncation. -/
def getFileStatistics (commits : List Commit) : List FileStat :=
  sortFileStats (collectFileStats commits)

end Report

/-- Insertion-order deduplication: the sequence of distinct keys of a
JavaScript object in the order they were first inserted. -/
def firstDedup (l : List String) : List String :=
  l.foldl (fun acc x => if x ∈ acc then acc else acc ++ [x]) []

/-! ## Heuristic change categorization
(`AIAnalysisService.generateBasicAnalysis`, src/unnamed/part_006 lines
81-160, textually identical to `ReportService.generateBasicAnalysis`,
src/unnamed/part_004 lines 577-656) -/

/-- Bullet block for the authentication topic. -/
def authBlock : List String :=
  ["* Authentication/Authorization changes",
   "  - Implemented or modified user authentication system",
   "  - Updated security protocols or access controls"]

/-- Bullet block for the API topic. -/
def apiBlock : List String :=
  ["* API integration or endpoint changes",
   "  - Added new API endpoints or modified existing ones",
   "  - Integrated external services or third-party APIs",
   "  - Updated API configuration or connection settings"]

/-- Bullet block for the UI topic. -/
def uiBlock : List String :=
  ["* UI/UX design updates",
   "  - Modified user interface components and layouts",
   "  - Updated styling, themes, or visual elements",
   "  - Improved user experience and interface responsiveness"]

/-- Bullet block for the testing topic. -/
def testingBlock : List String :=
  ["* Testing improvements",
   "  - Added or updated test cases and test coverage",
   "  - Implemented automated testing or quality assurance"]

/-- Bullet block for the documentation topic. -/
def readmeBlock : List String :=
  ["* Documentation updates",
   "  - Updated project documentation and guides",
   "  - Improved code comments or technical documentation"]

/-- Bullet block for the environment-configuration topic. -/
def envBlock : List String :=
  ["* Environment configuration changes",
   "  - Updated environment variables and configuration settings",
   "  - Modified deployment or development environment setup"]

/-- Bullet block for the dependency-manifest topic. -/
def packageBlock : List String :=
  ["* Dependency updates",
   "  - Updated project dependencies and libraries",
   "  - Added new packages or updated existing ones"]

/-- Bullet block appended when both extension buckets are non-empty. -/
def fullStackBlock : List String :=
  ["* Full-stack development changes",
   "  - Worked on both frontend and backend components",
   "  - Implemented end-to-end features or functionality"]

/-- Bullet block appended when only the backend bucket is non-empty. -/
def backendOnlyBlock : List String :=
  ["* Backend functionality updates",
   "  - Modified server-side logic and business rules",
   "  - Updated database operations or data processing"]

/-- Bullet block appended when only the frontend bucket is non-empty. -/
def frontendOnlyBlock : List String :=
  ["* Frontend development changes",
   "  - Updated client-side components and user interface",
   "  - Modified user interactions and frontend logic"]

/-- Fallback block when nothing matched. -/
def genericBlock : List String :=
  ["* General code changes and improvements",
   "  - Made general code improvements and optimizations",
   "  - Updated existing functionality or fixed issues"]

/-- The backend extension markers of the bucket pass.  Note these are
tested with `includes` (substring), not with an ends-with test. -/
def backendExts : List String := [".js", ".py", ".java", ".php"]

/-- The frontend extension markers of the bucket pass. -/
def frontendExts : List String := [".jsx", ".tsx", ".vue", ".html", ".css"]

/-- Does a file land in the backend bucket?
(`['.js', '.py', '.java', '.php'].some(ext => f.filename.toLowerCase().includes(ext))`) -/
def isBackendFile (f : FileChange) : Bool :=
  backendExts.any (fun ext => jsIncludes (jsToLower f.filename) ext)

/-- Does a file land in the frontend bucket? -/
def isFrontendFile (f : FileChange) : Bool :=
  frontendExts.any (fun ext => jsIncludes (jsToLower f.filename) ext)

/-- The seven cumulative topic passes of the heuristic categorizer, in
source order; each pass appends its fixed block when its filename/message
evidence matches. -/
def topicBlocksOf (c : Commit) : List String :=
  (if c.files.any (fun f => jsIncludes (jsToLower f.filename) "auth")
      || jsIncludes (jsToLower c.message) "auth"
   then authBlock else [])
  ++ (if c.files.any (fun f => jsIncludes (jsToLower f.filename) "api")
        || jsIncludes (jsToLower c.message) "api"
      then apiBlock else [])
  ++ (if c.files.any (fun f => jsIncludes (jsToLower f.filename) "ui"
        || jsIncludes (jsToLower f.filename) "css" || jsIncludes (jsToLower f.filename) "jsx")
      then uiBlock else [])
  ++ (if c.files.any (fun f => jsIncludes (jsToLower f.filename) "test")
      then testingBlock else [])
  ++ (if c.files.any (fun f => jsIncludes (jsToLower f.filename) "readme")
      then readmeBlock else [])
  ++ (if c.files.any (fun f => jsIncludes (jsToLower f.filename) "env")
      then envBlock else [])
  ++ (if c.files.any (fun f => jsIncludes (jsToLower f.filename) "package")
      then packageBlock else [])

/-- The extension-bucket pass: one of three mutually exclusive stack
blocks, chosen by which of the backend/frontend buckets are non-empty. -/
def stackBlocksOf (c : Commit) : List String :=
  let backendFiles := c.files.filter isBackendFile
  let frontendFiles := c.files.filter isFrontendFile
  if backendFiles.length > 0 && frontendFiles.length > 0 then fullStackBlock
  else if backendFiles.length > 0 then backendOnlyBlock
  else if frontendFiles.length > 0 then frontendOnlyBlock
  else []

/-- The heuristic categorizer, producing the `analysis` array of bullet
lines in source order: seven independent topic passes (cumulative, not
first-match), then one of three mutually exclusive stack blocks from the
extension buckets, then a generic fallback if nothing was pushed. -/
def generateBasicAnalysis (c : Commit) : List String :=
  let analysis := topicBlocksOf c ++ stackBlocksOf c
  if analysis.isEmpty then genericBlock else analysis

/-- The string returned by the source: `analysis.join('\n')`. -/
def analysisText (c : Commit) : String :=
  String.intercalate "\n" (generateBasicAnalysis c)

/-! ## Report generation (`ReportService`, src/unnamed/part_004) -/

namespace ReportService

/-- `ReportService.getStatusEmoji` (lines 663-671). -/
def getStatusEmoji (status : String) : String :=
  if status = "added" then "[ADDED]"
  else if status = "modified" then "[MODIFIED]"
  else if status = "removed" then "[REMOVED]"
  else if status = "renamed" then "[RENAMED]"
  else "[CHANGED]"

/-- The report header: `# Hey, on ...` in markdown, undecorated in text. -/
def header (dateRange format : String) : String :=
  if format = "markdown" then "# Hey, on " ++ dateRange ++ " you did these changes:\n\n"
  else "Hey, on " ++ dateRange ++ " you did these changes:\n\n"

/-- One file line of the changed-files list. -/
def fileLine (format : String) (f : FileChange) : String :=
  let emoji := getStatusEmoji f.status
  if format = "markdown" then
    "- " ++ emoji ++ " `" ++ f.filename ++ "` (" ++ toString f.changes ++ " changes)\n"
  else
    "  " ++ emoji ++ " " ++ f.filename ++ " (" ++ toString f.changes ++ " changes)\n"

/-- The changed-files section (skipped when the commit has no files). -/
def filesSection (format : String) (files : List FileChange) : String :=
  if files.isEmpty then ""
  else
    (if format = "markdown" then "**Changed Files:**\n" else "Changed Files:\n")
    ++ String.join (files.map (fileLine format)) ++ "\n"

/-- The block separator: 50 dashes for text, `---` otherwise. -/
def separatorLine (format : String) : String :=
  if format = "text" then String.mk (List.replicate 50 '-') ++ "\n\n"
  else "---\n\n"

/-- The message / author / stats lines common to quick and enhanced
reports.  `fmtTime` abstracts `moment(author.date).format('HH:mm:ss')`,
whose output depends on the process's local timezone; both formats apply
the same function to the same date. -/
def commitHeadBlock (fmtTime : String → String) (format : String) (i : Nat)
    (c : Commit) : String :=
  (if format = "markdown" then
    "## Commit " ++ toString (i + 1) ++ ": " ++ jsTrim c.message ++ "\n\n"
   else
    "Commit " ++ toString (i + 1) ++ ": " ++ jsTrim c.message ++ "\n")
  ++ (if format = "markdown" then
    "**Author:** " ++ c.author.name ++ " | **Time:** " ++ fmtTime c.author.date ++ "\n\n"
   else
    "Author: " ++ c.author.name ++ " | Time: " ++ fmtTime c.author.date ++ "\n")
  ++ (if format = "markdown" then
    "**Changes:** +" ++ toString c.stats.additions ++ " -" ++ toString c.stats.deletions
      ++ " lines\n\n"
   else
    "Changes: +" ++ toString c.stats.additions ++ " -" ++ toString c.stats.deletions
      ++ " lines\n")

/-- One commit block of `generateQuickReport`. -/
def quickCommitBlock (fmtTime : String → String) (format : String) (i : Nat)
    (c : Commit) : String :=
  commitHeadBlock fmtTime format i c ++ filesSection format c.files
    ++ separatorLine format

/-- The analysis section of an enhanced report.  `analyzer` is the
optional AI analyzer; when absent the heuristic categorizer is used. -/
def analysisSection (analyzer : Option (Commit → String)) (format : String)
    (c : Commit) : String :=
  let analysis :=
    match analyzer with
    | some f => f c
    | none => analysisText c
  if format = "markdown" then "**What you accomplished:**\n" ++ analysis ++ "\n\n"
  else "What you accomplished:\n" ++ analysis ++ "\n"

/-- One commit block of `generateEnhancedReport`. -/
def enhancedCommitBlock (fmtTime : String → String)
    (analyzer : Option (Commit → String)) (format : String) (i : Nat)
    (c : Commit) : String :=
  commitHeadBlock fmtTime format i c ++ analysisSection analyzer format c
    ++ filesSection format c.files ++ separatorLine format

/-- `ReportService.generateQuickReport` (lines 402-474): one
format-conditional generation pass over the commit list. -/
def generateQuickReport (fmtTime : String → String) (commits : List CommitData)
    (dateRange format : String) : String :=
  if commits.isEmpty then "No commits found for " ++ dateRange
  else
    header dateRange format
    ++ String.join (commits.enum.map
        (fun p => quickCommitBlock fmtTime format p.1 (Commit.ofData p.2)))

/-- `ReportService.generateEnhancedReport` (lines 484-570): the same pass
with an analysis section inserted into each commit block. -/
def generateEnhancedReport (fmtTime : String → String)
    (analyzer : Option (Commit → String)) (commits : List CommitData)
    (dateRange format : String) : String :=
  if commits.isEmpty then "No commits found for " ++ dateRange
  else
    header dateRange format
    ++ String.join (commits.enum.map
        (fun p => enhancedCommitBlock fmtTime analyzer format p.1 (Commit.ofData p.2)))

end ReportService

/-! ## Filename synthesis -/

/-- A wall-clock instant, as read by `new Date()` / `moment()`. -/
structure DateTime where
  year : Nat
  month : Nat
  day : Nat
  hour : Nat
  minute : Nat
  second : Nat
deriving DecidableEq, Inhabited

namespace ReportService

/-- `moment().format('YYYY-MM-DD-HH-mm-ss')`: the timestamp component of
`ReportService.generateFilename` — second-level resolution. -/
def secondStamp (t : DateTime) : String :=
  pad4 t.year ++ "-" ++ pad2 t.month ++ "-" ++ pad2 t.day ++ "-"
    ++ pad2 t.hour ++ "-" ++ pad2 t.minute ++ "-" ++ pad2 t.second

/-- `ReportService.generateFilename` (src/unnamed/part_004, lines
696-700): second-resolution timestamp, but the extension is `md` for
markdown and `txt` for every other format. -/
def generateFilename (reportType dateRange format : String) (now : DateTime) :
    String :=
  reportType ++ "-report-" ++ dateRange ++ "-" ++ secondStamp now ++ "."
    ++ (if format = "markdown" then "md" else "txt")

end ReportService

namespace ReportView

/-- `ReportView.getFileExtension` (src/unnamed/part_001, lines 351-359):
the four-way extension map with default `txt`. -/
def getFileExtension (format : String) : String :=
  let f := jsToLower format
  if f = "text" then "txt"
  else if f = "markdown" then "md"
  else if f = "html" then "html"
  else if f = "json" then "json"
  else "txt"

/-- `new Date().toISOString().split('T')[0]`: the timestamp component of
`ReportView.generateFilename` — the calendar date only. -/
def isoDateStamp (t : DateTime) : String :=
  pad4 t.year ++ "-" ++ pad2 t.month ++ "-" ++ pad2 t.day

/-- `ReportView.generateFilename` (src/unnamed/part_001, lines 340-344):
full extension map, but a day-resolution timestamp. -/
def generateFilename (reportType dateRange format : String) (now : DateTime) :
    String :=
  reportType ++ "-report-" ++ dateRange ++ "-" ++ isoDateStamp now ++ "."
    ++ getFileExtension format

end ReportView

/-! ## Decoration stripping (for comparing text and markdown output) -/

/-- Is a character a non-decoration character?  The decoration alphabet is
the heading marker, the bold/emphasis marker, the inline-code marker, the
dash (list bullets and separator rules), and layout whitespace. -/
def keepChar (c : Char) : Bool :=
  !(c == '#' || c == '*' || c == Char.ofNat 96 || c == '-' || c == ' ' || c == '\n')

/-- The decoration-stripped character content of a string. -/
def sd (s : String) : List Char :=
  s.data.filter keepChar

/-! ## Decidability and order instances -/

instance {ε α : Type} [DecidableEq ε] [DecidableEq α] : DecidableEq (Except ε α) := fun a b =>
  match a, b with
  | .ok x, .ok y =>
    if h : x = y then .isTrue (by rw [h]) else .isFalse (fun hc => by cases hc; exact h rfl)
  | .ok _, .error _ => .isFalse (fun hc => by cases hc)
  | .error _, .ok _ => .isFalse (fun hc => by cases hc)
  | .error x, .error y =>
    if h : x = y then .isTrue (by rw [h]) else .isFalse (fun hc => by cases hc; exact h rfl)

instance : IsTotal ContribStat (fun a b => b.commits ≤ a.commits) :=
  ⟨fun a b => Nat.le_total b.commits a.commits⟩

instance : IsTrans ContribStat (fun a b => b.commits ≤ a.commits) :=
  ⟨fun _ _ _ hab hbc => le_trans hbc hab⟩

instance : IsTotal FileStat (fun a b => b.changes ≤ a.changes) :=
  ⟨fun a b => Int.le_total b.changes a.changes⟩

instance : IsTrans FileStat (fun a b => b.changes ≤ a.changes) :=
  ⟨fun _ _ _ hab hbc => le_trans hbc hab⟩

/-! # Theorems -/

/-! ## Generic helper lemmas -/

/-- Membership in a conditional block implies membership in the block. -/
theorem mem_of_mem_ite_nil {α : Type} {P : Prop} [Decidable P] {x : α} {l : List α}
    (h : x ∈ (if P then l else [])) : x ∈ l := by
  by_cases hP : P
  · rwa [if_pos hP] at h
  · rw [if_neg hP] at h; cases h

/-- Every line of the topic passes comes from one of the seven topic blocks. -/
theorem mem_topicBlocksOf {x : String} {c : Commit} (h : x ∈ topicBlocksOf c) :
    x ∈ authBlock ∨ x ∈ apiBlock ∨ x ∈ uiBlock ∨ x ∈ testingBlock ∨
    x ∈ readmeBlock ∨ x ∈ envBlock ∨ x ∈ packageBlock := by
  rw [topicBlocksOf] at h
  simp only [List.mem_append] at h
  rcases h with (((((h | h) | h) | h) | h) | h) | h
  · exact Or.inl (mem_of_mem_ite_nil h)
  · exact Or.inr (Or.inl (mem_of_mem_ite_nil h))
  · exact Or.inr (Or.inr (Or.inl (mem_of_mem_ite_nil h)))
  · exact Or.inr (Or.inr (Or.inr (Or.inl (mem_of_mem_ite_nil h))))
  · exact Or.inr (Or.inr (Or.inr (Or.inr (Or.inl (mem_of_mem_ite_nil h)))))
  · exact Or.inr (Or.inr (Or.inr (Or.inr (Or.inr (Or.inl (mem_of_mem_ite_nil h))))))
  · exact Or.inr (Or.inr (Or.inr (Or.inr (Or.inr (Or.inr (mem_of_mem_ite_nil h))))))

/-- With a non-empty backend bucket and an empty frontend bucket, the stack
pass emits exactly the backend-only block. -/
theorem stackBlocksOf_backend_only {c : Commit}
    (hback : 0 < (c.files.filter isBackendFile).length)
    (hfront : c.files.filter isFrontendFile = []) :
    stackBlocksOf c = backendOnlyBlock := by
  rw [stackBlocksOf]
  simp [hback, hfront]

/-- With both buckets non-empty, the stack pass emits the full-stack block. -/
theorem stackBlocksOf_fullstack {c : Commit}
    (hback : 0 < (c.files.filter isBackendFile).length)
    (hfront : 0 < (c.files.filter isFrontendFile).length) :
    stackBlocksOf c = fullStackBlock := by
  rw [stackBlocksOf]
  simp [hback, hfront]

/-- When the stack pass produced something, the generic fallback is not
taken, and the analysis is the topic passes followed by the stack pass. -/
theorem generateBasicAnalysis_of_stack {c : Commit} (hs : stackBlocksOf c ≠ []) :
    generateBasicAnalysis c = topicBlocksOf c ++ stackBlocksOf c := by
  rw [generateBasicAnalysis]
  have h : (topicBlocksOf c ++ stackBlocksOf c).isEmpty = false := by
    rcases hne : stackBlocksOf c with _ | ⟨a, t⟩
    · exact absurd hne hs
    · simp
  simp [h]

/-- Correctness of the substring scan: it decides contiguous containment. -/
theorem isSubChars_iff (pat : List Char) : ∀ hay : List Char,
    isSubChars pat hay = true ↔ pat <:+: hay := by
  intro hay
  induction hay with
  | nil => simp [isSubChars, List.isEmpty_iff]
  | cons c t ih =>
    simp [isSubChars, ih, List.infix_cons_iff, List.isPrefixOf_iff_prefix]

/-- A string containing `.jsx` also contains `.js` — the overlap behind the
double bucketing of `.jsx` files. -/
theorem jsIncludes_mono_js (s : String)
    (h : jsIncludes s ".jsx" = true) : jsIncludes s ".js" = true := by
  rw [jsIncludes, isSubChars_iff] at h ⊢
  exact List.IsInfix.trans (by decide) h

/-! ## C7 — authentication plus backend-only blocks -/

/-- C7: for every commit whose changed files include `src/auth/login.js`,
whose message is `add auth`, and whose files contain no
frontend-extension match, the heuristic categorizer's output contains the
authentication bullet block and the backend-only bullet block, and
contains neither the frontend-only nor the full-stack block. -/
theorem c7_auth_backend_blocks (c : Commit)
    (hmem : ∃ f ∈ c.files, f.filename = "src/auth/login.js")
    (hmsg : c.message = "add auth")
    (hfe : ∀ f ∈ c.files, isFrontendFile f = false) :
    "* Authentication/Authorization changes" ∈ generateBasicAnalysis c ∧
    "* Backend functionality updates" ∈ generateBasicAnalysis c ∧
    "* Frontend development changes" ∉ generateBasicAnalysis c ∧
    "* Full-stack development changes" ∉ generateBasicAnalysis c := by
  obtain ⟨f0, hf0, hname⟩ := hmem
  have hfront : c.files.filter isFrontendFile = [] := by
    rw [List.filter_eq_nil_iff]
    intro f hf
    simp [hfe f hf]
  have hback : 0 < (c.files.filter isBackendFile).length := by
    have hm : f0 ∈ c.files.filter isBackendFile := by
      rw [List.mem_filter]
      exact ⟨hf0, by rw [isBackendFile, hname]; decide⟩
    exact List.length_pos.mpr (fun hnil => by rw [hnil] at hm; cases hm)
  have hstack : stackBlocksOf c = backendOnlyBlock := stackBlocksOf_backend_only hback hfront
  have hgen : generateBasicAnalysis c = topicBlocksOf c ++ stackBlocksOf c :=
    generateBasicAnalysis_of_stack (by rw [hstack]; decide)
  have hauth : ((c.files.any fun f => jsIncludes (jsToLower f.filename) "auth")
      || jsIncludes (jsToLower c.message) "auth") = true := by
    have h1 : (c.files.any fun f => jsIncludes (jsToLower f.filename) "auth") = true := by
      rw [List.any_eq_true]
      exact ⟨f0, hf0, by rw [hname]; decide⟩
    simp [h1]
  refine ⟨?_, ?_, ?_, ?_⟩
  · rw [hgen]
    apply List.mem_append_left
    rw [topicBlocksOf]
    apply List.mem_append_left
    apply List.mem_append_left
    apply List.mem_append_left
    apply List.mem_append_left
    apply List.mem_append_left
    apply List.mem_append_left
    rw [if_pos hauth]
    decide
  · rw [hgen, hstack]
    apply List.mem_append_right
    decide
  · rw [hgen, hstack]
    intro hmemx
    rcases List.mem_append.mp hmemx with hx | hx
    · rcases mem_topicBlocksOf hx with h | h | h | h | h | h | h <;> revert h <;> decide
    · revert hx; decide
  · rw [hgen, hstack]
    intro hmemx
    rcases List.mem_append.mp hmemx with hx | hx
    · rcases mem_topicBlocksOf hx with h | h | h | h | h | h | h <;> revert h <;> decide
    · revert hx; decide

/-- C7 witness: the scenario instantiated with a concrete one-file commit. -/
theorem c7_auth_backend_blocks_witness :
    "* Authentication/Authorization changes" ∈ generateBasicAnalysis
      ⟨"s1", "add auth", ⟨"Alice", "alice@x.com", "2024-01-05T10:00:00Z"⟩,
        ⟨"Alice", "alice@x.com", "2024-01-05T10:00:00Z"⟩,
        [⟨"src/auth/login.js", "modified", 3, 1, 4⟩], ⟨4, 3, 1⟩⟩ ∧
    "* Backend functionality updates" ∈ generateBasicAnalysis
      ⟨"s1", "add auth", ⟨"Alice", "alice@x.com", "2024-01-05T10:00:00Z"⟩,
        ⟨"Alice", "alice@x.com", "2024-01-05T10:00:00Z"⟩,
        [⟨"src/auth/login.js", "modified", 3, 1, 4⟩], ⟨4, 3, 1⟩⟩ ∧
    "* Frontend development changes" ∉ generateBasicAnalysis
      ⟨"s1", "add auth", ⟨"Alice", "alice@x.com", "2024-01-05T10:00:00Z"⟩,
        ⟨"Alice", "alice@x.com", "2024-01-05T10:00:00Z"⟩,
        [⟨"src/auth/login.js", "modified", 3, 1, 4⟩], ⟨4, 3, 1⟩⟩ ∧
    "* Full-stack development changes" ∉ generateBasicAnalysis
      ⟨"s1", "add auth", ⟨"Alice", "alice@x.com", "2024-01-05T10:00:00Z"⟩,
        ⟨"Alice", "alice@x.com", "2024-01-05T10:00:00Z"⟩,
        [⟨"src/auth/login.js", "modified", 3, 1, 4⟩], ⟨4, 3, 1⟩⟩ :=
  c7_auth_backend_blocks _ (by decide) (by decide) (by decide)

/-! ## C10 — `.jsx` files land in both extension buckets -/

/-- C10: for every commit with a non-empty file list all of whose
(lowercased) file names contain the substring `.jsx`, the extension-bucket
pass puts the file set in both the backend bucket (the `.js` substring
test also matches `.jsx` names) and the frontend bucket, so the output
contains the full-stack block and never the frontend-only block. -/
theorem c10_jsx_double_bucket (c : Commit) (hne : c.files ≠ [])
    (hall : ∀ f ∈ c.files, jsIncludes (jsToLower f.filename) ".jsx" = true) :
    "* Full-stack development changes" ∈ generateBasicAnalysis c ∧
    "* Frontend development changes" ∉ generateBasicAnalysis c := by
  have hbackall : ∀ f ∈ c.files, isBackendFile f = true := by
    intro f hf
    rw [isBackendFile]
    have h1 : jsIncludes (jsToLower f.filename) ".js" = true :=
      jsIncludes_mono_js _ (hall f hf)
    simp [backendExts, h1]
  have hfrontall : ∀ f ∈ c.files, isFrontendFile f = true := by
    intro f hf
    rw [isFrontendFile]
    simp [frontendExts, hall f hf]
  obtain ⟨f0, hf0⟩ := List.exists_mem_of_ne_nil c.files hne
  have hback : 0 < (c.files.filter isBackendFile).length := by
    have hm : f0 ∈ c.files.filter isBackendFile :=
      List.mem_filter.mpr ⟨hf0, hbackall f0 hf0⟩
    exact List.length_pos.mpr (fun hnil => by rw [hnil] at hm; cases hm)
  have hfront : 0 < (c.files.filter isFrontendFile).length := by
    have hm : f0 ∈ c.files.filter isFrontendFile :=
      List.mem_filter.mpr ⟨hf0, hfrontall f0 hf0⟩
    exact List.length_pos.mpr (fun hnil => by rw [hnil] at hm; cases hm)
  have hstack : stackBlocksOf c = fullStackBlock := stackBlocksOf_fullstack hback hfront
  have hgen : generateBasicAnalysis c = topicBlocksOf c ++ stackBlocksOf c :=
    generateBasicAnalysis_of_stack (by rw [hstack]; decide)
  constructor
  · rw [hgen, hstack]
    apply List.mem_append_right
    decide
  · rw [hgen, hstack]
    intro hmemx
    rcases List.mem_append.mp hmemx with hx | hx
    · rcases mem_topicBlocksOf hx with h | h | h | h | h | h | h <;> revert h <;> decide
    · revert hx; decide

/-- C10 witness: a commit touching only `App.jsx` is classified full-stack. -/
theorem c10_jsx_double_bucket_witness :
    "* Full-stack development changes" ∈ generateBasicAnalysis
      ⟨"s2", "tweak component", ⟨"Bo", "bo@x.com", "2024-01-05T11:00:00Z"⟩,
        ⟨"Bo", "bo@x.com", "2024-01-05T11:00:00Z"⟩,
        [⟨"App.jsx", "modified", 2, 2, 4⟩], ⟨4, 2, 2⟩⟩ ∧
    "* Frontend development changes" ∉ generateBasicAnalysis
      ⟨"s2", "tweak component", ⟨"Bo", "bo@x.com", "2024-01-05T11:00:00Z"⟩,
        ⟨"Bo", "bo@x.com", "2024-01-05T11:00:00Z"⟩,
        [⟨"App.jsx", "modified", 2, 2, 4⟩], ⟨4, 2, 2⟩⟩ :=
  c10_jsx_double_bucket _ (by decide) (by decide)

/-! ## C8 — repository URL resolution -/

/-- C8: `extractRepoInfo` maps `https://github.com/acme/widgets.git` to
`(acme, widgets)`, raises the invalid-reference error for `not-a-url`,
and in general succeeds exactly when one of the two URL patterns matches
and the remaining path splits into exactly two segments. -/
theorem c8_extract_repo_info :
    GitHubService.extractRepoInfo "https://github.com/acme/widgets.git"
      = .ok ("acme", "widgets")
    ∧ GitHubService.extractRepoInfo "not-a-url"
      = .error "Invalid GitHub repository URL format"
    ∧ ∀ url : String,
        (∃ v, GitHubService.extractRepoInfo url = .ok v) ↔
        ((jsStartsWith url "https://github.com/" = true ∧
            (jsSplit (jsTrim (jsReplaceEmpty url "https://github.com/")) '/').length = 2)
         ∨ (jsStartsWith url "https://github.com/" = false ∧
            jsStartsWith url "git@github.com:" = true ∧
            (jsSplit (jsReplaceEmpty (jsReplaceEmpty url "git@github.com:") ".git")
                '/').length = 2)) := by
  refine ⟨by decide, by decide, ?_⟩
  intro url
  rw [GitHubService.extractRepoInfo]
  by_cases h1 : jsStartsWith url "https://github.com/" = true
  · simp only [h1, if_pos]
    generalize jsSplit (jsTrim (jsReplaceEmpty url "https://github.com/")) '/' = parts
    rcases parts with _ | ⟨a, _ | ⟨b, _ | ⟨cc, t⟩⟩⟩ <;> simp [h1]
  · have h1f : jsStartsWith url "https://github.com/" = false := by
      simpa using h1
    by_cases h2 : jsStartsWith url "git@github.com:" = true
    · simp only [h1f, Bool.false_eq_true, if_false, h2, if_pos]
      generalize jsSplit (jsReplaceEmpty (jsReplaceEmpty url "git@github.com:") ".git") '/'
        = parts
      rcases parts with _ | ⟨a, _ | ⟨b, _ | ⟨cc, t⟩⟩⟩ <;> simp [h1f, h2]
    · have h2f : jsStartsWith url "git@github.com:" = false := by simpa using h2
      simp [h1f, h2f]

/-! ## C5 — the stats total is taken as given, not checked -/

/-- C5 counterexample: constructing a `Commit` from data with
`total = 5`, `additions = 1`, `deletions = 1` succeeds and stores the
violating total — the invariant `total = additions + deletions` is not
checked (and no construction failure exists), refuting the claim that
construction rejects such data. -/
theorem c5_total_invariant_counterexample :
    (Commit.ofData ⟨some "abc", some "msg", none, none, none,
        some ⟨some 5, some 1, some 1⟩⟩).stats.total ≠
      (Commit.ofData ⟨some "abc", some "msg", none, none, none,
          some ⟨some 5, some 1, some 1⟩⟩).stats.additions
        + (Commit.ofData ⟨some "abc", some "msg", none, none, none,
            some ⟨some 5, some 1, some 1⟩⟩).stats.deletions := by
  decide

/-- C5 amended: the constructor copies any supplied `total` (even one
violating `total = additions + deletions`) without checking or rejecting;
the stored total is never recomputed — `getNetChanges` is derived from
additions and deletions alone, and `toJSON` re-emits the stored stats
verbatim. -/
theorem c5_total_invariant (d : CommitData) (t a dl : Int)
    (hs : d.stats = some ⟨some t, some a, some dl⟩) (hne : t ≠ a + dl) :
    (Commit.ofData d).stats = ⟨t, a, dl⟩ ∧
    (Commit.ofData d).stats.total ≠
      (Commit.ofData d).stats.additions + (Commit.ofData d).stats.deletions ∧
    (Commit.ofData d).getNetChanges = a - dl ∧
    ((Commit.ofData d).toJSON).stats = some ⟨some t, some a, some dl⟩ := by
  refine ⟨?_, ?_, ?_, ?_⟩ <;>
    simp [Commit.ofData, hs, Commit.getNetChanges, Commit.toJSON, hne]

/-- C5 witness: the amended statement at the concrete violating input. -/
theorem c5_total_invariant_witness :
    (Commit.ofData ⟨some "w", some "m", none, none, none,
        some ⟨some 9, some 2, some 3⟩⟩).stats = ⟨9, 2, 3⟩ ∧
    (Commit.ofData ⟨some "w", some "m", none, none, none,
        some ⟨some 9, some 2, some 3⟩⟩).stats.total ≠
      (Commit.ofData ⟨some "w", some "m", none, none, none,
          some ⟨some 9, some 2, some 3⟩⟩).stats.additions
        + (Commit.ofData ⟨some "w", some "m", none, none, none,
            some ⟨some 9, some 2, some 3⟩⟩).stats.deletions ∧
    (Commit.ofData ⟨some "w", some "m", none, none, none,
        some ⟨some 9, some 2, some 3⟩⟩).getNetChanges = 2 - 3 ∧
    ((Commit.ofData ⟨some "w", some "m", none, none, none,
        some ⟨some 9, some 2, some 3⟩⟩).toJSON).stats
      = some ⟨some 9, some 2, some 3⟩ :=
  c5_total_invariant _ 9 2 3 rfl (by decide)

/-! ## C2 — the until parameter of the range fetch -/

/-- C2 counterexample: `getCommitsForDateRange` passes `until` as the
caller's to-date itself, not the day after it. -/
theorem c2_until_parameter_counterexample :
    (GitHubService.rangeOptions "2024-03-01" "2024-03-10" "main" none).untilDate
      = some "2024-03-10" ∧
    (GitHubService.rangeOptions "2024-03-01" "2024-03-10" "main" none).untilDate
      ≠ some (addOneDayStr "2024-03-10") := by
  constructor <;> decide

/-- C2 amended: the range operation forwards both bounds unchanged
(`since = from`, `until = to`); the one-day compensation lives in the
single-date operation, which queries the range `[date, date + 1 day)`;
and adding one day always moves to a different calendar date. -/
theorem c2_until_parameter :
    (∀ fromDate toDate branch : String, ∀ author : Option String,
      (GitHubService.rangeOptions fromDate toDate branch author).untilDate = some toDate ∧
      (GitHubService.rangeOptions fromDate toDate branch author).since = some fromDate) ∧
    (∀ (upstream : GitHubService.CommitOptions → Nat → Except String (List String))
       (detail : String → Except String Commit) (date branch : String)
       (author : Option String) (fuel : Nat),
      GitHubService.getCommitsForDate upstream detail date branch author fuel =
        GitHubService.getCommits upstream detail
          (GitHubService.rangeOptions date (addOneDayStr date) branch author) fuel) ∧
    (∀ y m d : Nat, addOneDay ⟨y, m, d⟩ ≠ ⟨y, m, d⟩) := by
  refine ⟨fun _ _ _ _ => ⟨rfl, rfl⟩, fun _ _ _ _ _ _ => rfl, ?_⟩
  intro y m d
  rw [addOneDay]
  split_ifs <;> simp [Ymd.mk.injEq]

/-! ## C9 — filename synthesis -/

/-- On two-digit inputs, the two-digit padder is injective (at the level
of the underlying character data). -/
theorem pad2_inj_60 : ∀ a b : Fin 60, (pad2 a.val).data = (pad2 b.val).data → a = b := by
  decide

/-- On two-digit inputs, the two-digit padder emits exactly two characters. -/
theorem pad2_len_60 : ∀ a : Fin 60, (pad2 a.val).length = 2 := by
  decide

/-- C9 counterexample: `ReportView.generateFilename` gives the same
filename to two runs at different times of the same day (its timestamp is
the calendar date only), and `ReportService.generateFilename` gives the
`txt` extension, not `html`, to an html report — each refuting one half
of the claimed filename contract. -/
theorem c9_filename_synthesis_counterexample :
    ReportView.generateFilename "quick" "2024-05-06" "text" ⟨2024, 5, 6, 10, 0, 0⟩ =
      ReportView.generateFilename "quick" "2024-05-06" "text" ⟨2024, 5, 6, 11, 30, 59⟩ ∧
    ReportService.generateFilename "quick" "2024-05-06" "html" ⟨2024, 5, 6, 10, 0, 0⟩ =
      "quick-report-2024-05-06-2024-05-06-10-00-00.txt" := by
  constructor <;> decide

/-- C9 amended: both filename synthesizers follow the shape
`{reportType}-report-{dateRange}-{timestamp}.{ext}`, but they split the
claimed contract between them: `ReportView` uses the four-way extension
map while its timestamp is the calendar date only (runs on the same day
collide); `ReportService` uses a second-resolution timestamp (runs in
different seconds of the same minute get distinct names) while its
extension map sends markdown to `md` and every other format to `txt`. -/
theorem c9_filename_synthesis :
    (∀ rt dr fmt : String, ∀ t : DateTime,
      ReportView.generateFilename rt dr fmt t =
        rt ++ "-report-" ++ dr ++ "-" ++ ReportView.isoDateStamp t ++ "."
          ++ ReportView.getFileExtension fmt ∧
      ReportService.generateFilename rt dr fmt t =
        rt ++ "-report-" ++ dr ++ "-" ++ ReportService.secondStamp t ++ "."
          ++ (if fmt = "markdown" then "md" else "txt")) ∧
    (ReportView.getFileExtension "text" = "txt" ∧
     ReportView.getFileExtension "markdown" = "md" ∧
     ReportView.getFileExtension "html" = "html" ∧
     ReportView.getFileExtension "json" = "json") ∧
    (∀ rt dr fmt : String, ∀ t t2 : DateTime,
      t.year = t2.year → t.month = t2.month → t.day = t2.day →
      ReportView.generateFilename rt dr fmt t = ReportView.generateFilename rt dr fmt t2) ∧
    (∀ rt dr fmt : String, ∀ t t2 : DateTime,
      t.year = t2.year → t.month = t2.month → t.day = t2.day → t.hour = t2.hour →
      t.minute = t2.minute → t.second < 60 → t2.second < 60 → t.second ≠ t2.second →
      ReportService.generateFilename rt dr fmt t ≠
        ReportService.generateFilename rt dr fmt t2) := by
  refine ⟨fun _ _ _ _ => ⟨rfl, rfl⟩, ⟨by decide, by decide, by decide, by decide⟩, ?_, ?_⟩
  · intro rt dr fmt t t2 hy hmo hd
    rw [ReportView.generateFilename, ReportView.generateFilename,
        ReportView.isoDateStamp, ReportView.isoDateStamp, hy, hmo, hd]
  · intro rt dr fmt t t2 hy hmo hd hh hmi hs1 hs2 hne heq
    rw [ReportService.generateFilename, ReportService.generateFilename,
        ReportService.secondStamp, ReportService.secondStamp, hy, hmo, hd, hh, hmi] at heq
    have hdata := congrArg String.data heq
    simp only [String.data_append] at hdata
    repeat rw [List.append_assoc] at hdata
    have h1 := List.append_cancel_left hdata
    have h2 := List.append_cancel_left h1
    have h3 := List.append_cancel_left h2
    have h4 := List.append_cancel_left h3
    have h5 := List.append_cancel_left h4
    have h6 := List.append_cancel_left h5
    have h7 := List.append_cancel_left h6
    have h8 := List.append_cancel_left h7
    have h9 := List.append_cancel_left h8
    have h10 := List.append_cancel_left h9
    have h11 := List.append_cancel_left h10
    have h12 := List.append_cancel_left h11
    have h13 := List.append_cancel_left h12
    have h14 := List.append_cancel_left h13
    have hlen : (pad2 t.second).data.length = (pad2 t2.second).data.length := by
      have l1 := pad2_len_60 ⟨t.second, hs1⟩
      have l2 := pad2_len_60 ⟨t2.second, hs2⟩
      simp only [String.length] at l1 l2
      rw [l1, l2]
    have hde := (List.append_inj h14 hlen).1
    have hfe : (⟨t.second, hs1⟩ : Fin 60) = ⟨t2.second, hs2⟩ := pad2_inj_60 _ _ hde
    exact hne (by simpa using congrArg Fin.val hfe)

/-- C9 witness: the amended statement's distinctness and same-day-collision
clauses at concrete instants one second apart. -/
theorem c9_filename_synthesis_witness :
    ReportView.generateFilename "quick" "2024-05-06" "json" ⟨2024, 5, 6, 10, 0, 0⟩ =
      ReportView.generateFilename "quick" "2024-05-06" "json" ⟨2024, 5, 6, 23, 59, 59⟩ ∧
    ReportService.generateFilename "quick" "2024-05-06" "text" ⟨2024, 5, 6, 10, 0, 0⟩ ≠
      ReportService.generateFilename "quick" "2024-05-06" "text" ⟨2024, 5, 6, 10, 0, 1⟩ :=
  ⟨c9_filename_synthesis.2.2.1 "quick" "2024-05-06" "json" ⟨2024, 5, 6, 10, 0, 0⟩
      ⟨2024, 5, 6, 23, 59, 59⟩ rfl rfl rfl,
   c9_filename_synthesis.2.2.2 "quick" "2024-05-06" "text" ⟨2024, 5, 6, 10, 0, 0⟩
      ⟨2024, 5, 6, 10, 0, 1⟩ rfl rfl rfl rfl rfl (by decide) (by decide) (by decide)⟩

/-! ## C3 — aggregation, ranking and truncation -/

/-- The nested per-commit-per-file fold equals the fold over the flattened
file stream. -/
theorem foldl_files_flat (commits : List Commit) : ∀ acc : List FileStat,
    commits.foldl (fun acc c => c.files.foldl addFileStat acc) acc
      = List.foldl addFileStat acc (commits.flatMap fun c => c.files) := by
  induction commits with
  | nil => intro acc; rfl
  | cons c rest ih =>
    intro acc
    rw [List.foldl_cons, List.flatMap_cons, List.foldl_append, ih]

/-- One upsert step changes the key sequence exactly like one
insertion-order-dedup step on the file's name. -/
theorem map_filename_addFileStat (acc : List FileStat) (f : FileChange) :
    (addFileStat acc f).map FileStat.filename =
      (if f.filename ∈ acc.map FileStat.filename then acc.map FileStat.filename
       else acc.map FileStat.filename ++ [f.filename]) := by
  rw [addFileStat]
  by_cases h : (acc.any fun x => x.filename == f.filename) = true
  · have hmem : f.filename ∈ acc.map FileStat.filename := by
      rw [List.any_eq_true] at h
      obtain ⟨x, hx, hbe⟩ := h
      rw [beq_iff_eq] at hbe
      exact hbe ▸ List.mem_map_of_mem _ hx
    rw [if_pos h, if_pos hmem, List.map_map]
    apply List.map_congr_left
    intro x _
    simp only [Function.comp]
    split <;> rfl
  · have hmem : f.filename ∉ acc.map FileStat.filename := by
      intro hm
      obtain ⟨x, hx, he⟩ := List.mem_map.mp hm
      have hc : (acc.any fun x => x.filename == f.filename) = true :=
        List.any_eq_true.mpr ⟨x, hx, by rw [beq_iff_eq]; exact he⟩
      exact h hc
    rw [if_neg h, if_neg hmem]
    simp

/-- The key sequence of the per-file fold is the insertion-order dedup of
the incoming name stream. -/
theorem map_filename_foldl (fs : List FileChange) : ∀ acc : List FileStat,
    (List.foldl addFileStat acc fs).map FileStat.filename =
      List.foldl (fun a x => if x ∈ a then a else a ++ [x])
        (acc.map FileStat.filename) (fs.map FileChange.filename) := by
  induction fs with
  | nil => intro acc; rfl
  | cons f rest ih =>
    intro acc
    rw [List.foldl_cons, List.map_cons, List.foldl_cons, ih, map_filename_addFileStat]

/-- The grouped file rollup has exactly one entry per distinct filename,
in first-seen order. -/
theorem collectFileStats_names (commits : List Commit) :
    (collectFileStats commits).map FileStat.filename =
      firstDedup ((commits.flatMap fun c => c.files).map FileChange.filename) := by
  rw [collectFileStats, foldl_files_flat, firstDedup, map_filename_foldl]
  rfl

/-- `Report.getFileStatistics` covers every distinct touched filename: its
key sequence is a permutation of the deduplicated name stream — no
truncation happens in the Report-model rollup. -/
theorem report_fileStats_names_perm (commits : List Commit) :
    ((Report.getFileStatistics commits).map FileStat.filename).Perm
      (firstDedup ((commits.flatMap fun c => c.files).map FileChange.filename)) := by
  rw [Report.getFileStatistics, ← collectFileStats_names]
  exact (List.perm_insertionSort _ _).map _

/-- C3 counterexample: on eleven commits touching eleven distinct files by
eleven distinct authors, the aggregation returns only ten file entries
(and only five contributors) while the untruncated Report rollup has
eleven — the truncation happens silently inside `getCommitStatistics`
itself, refuting the claim that the core aggregate is unbounded. -/
theorem c3_aggregation_counterexample :
    (CommitController.getCommitStatistics
      ([⟨"s1", "m", ⟨"A1", "e", "d"⟩, ⟨"A1", "e", "d"⟩, [⟨"f01.js", "modified", 1, 0, 12⟩], ⟨1, 1, 0⟩⟩,
        ⟨"s2", "m", ⟨"A2", "e", "d"⟩, ⟨"A2", "e", "d"⟩, [⟨"f02.js", "modified", 1, 0, 11⟩], ⟨1, 1, 0⟩⟩,
        ⟨"s3", "m", ⟨"A3", "e", "d"⟩, ⟨"A3", "e", "d"⟩, [⟨"f03.js", "modified", 1, 0, 10⟩], ⟨1, 1, 0⟩⟩,
        ⟨"s4", "m", ⟨"A4", "e", "d"⟩, ⟨"A4", "e", "d"⟩, [⟨"f04.js", "modified", 1, 0, 9⟩], ⟨1, 1, 0⟩⟩,
        ⟨"s5", "m", ⟨"A5", "e", "d"⟩, ⟨"A5", "e", "d"⟩, [⟨"f05.js", "modified", 1, 0, 8⟩], ⟨1, 1, 0⟩⟩,
        ⟨"s6", "m", ⟨"A6", "e", "d"⟩, ⟨"A6", "e", "d"⟩, [⟨"f06.js", "modified", 1, 0, 7⟩], ⟨1, 1, 0⟩⟩,
        ⟨"s7", "m", ⟨"A7", "e", "d"⟩, ⟨"A7", "e", "d"⟩, [⟨"f07.js", "modified", 1, 0, 6⟩], ⟨1, 1, 0⟩⟩,
        ⟨"s8", "m", ⟨"A8", "e", "d"⟩, ⟨"A8", "e", "d"⟩, [⟨"f08.js", "modified", 1, 0, 5⟩], ⟨1, 1, 0⟩⟩,
        ⟨"s9", "m", ⟨"A9", "e", "d"⟩, ⟨"A9", "e", "d"⟩, [⟨"f09.js", "modified", 1, 0, 4⟩], ⟨1, 1, 0⟩⟩,
        ⟨"sA", "m", ⟨"B1", "e", "d"⟩, ⟨"B1", "e", "d"⟩, [⟨"f10.js", "modified", 1, 0, 3⟩], ⟨1, 1, 0⟩⟩,
        ⟨"sB", "m", ⟨"B2", "e", "d"⟩, ⟨"B2", "e", "d"⟩, [⟨"f11.js", "modified", 1, 0, 2⟩], ⟨1, 1, 0⟩⟩] :
        List Commit)).fileStatistics.length = 10 ∧
    (Report.getFileStatistics
      ([⟨"s1", "m", ⟨"A1", "e", "d"⟩, ⟨"A1", "e", "d"⟩, [⟨"f01.js", "modified", 1, 0, 12⟩], ⟨1, 1, 0⟩⟩,
        ⟨"s2", "m", ⟨"A2", "e", "d"⟩, ⟨"A2", "e", "d"⟩, [⟨"f02.js", "modified", 1, 0, 11⟩], ⟨1, 1, 0⟩⟩,
        ⟨"s3", "m", ⟨"A3", "e", "d"⟩, ⟨"A3", "e", "d"⟩, [⟨"f03.js", "modified", 1, 0, 10⟩], ⟨1, 1, 0⟩⟩,
        ⟨"s4", "m", ⟨"A4", "e", "d"⟩, ⟨"A4", "e", "d"⟩, [⟨"f04.js", "modified", 1, 0, 9⟩], ⟨1, 1, 0⟩⟩,
        ⟨"s5", "m", ⟨"A5", "e", "d"⟩, ⟨"A5", "e", "d"⟩, [⟨"f05.js", "modified", 1, 0, 8⟩], ⟨1, 1, 0⟩⟩,
        ⟨"s6", "m", ⟨"A6", "e", "d"⟩, ⟨"A6", "e", "d"⟩, [⟨"f06.js", "modified", 1, 0, 7⟩], ⟨1, 1, 0⟩⟩,
        ⟨"s7", "m", ⟨"A7", "e", "d"⟩, ⟨"A7", "e", "d"⟩, [⟨"f07.js", "modified", 1, 0, 6⟩], ⟨1, 1, 0⟩⟩,
        ⟨"s8", "m", ⟨"A8", "e", "d"⟩, ⟨"A8", "e", "d"⟩, [⟨"f08.js", "modified", 1, 0, 5⟩], ⟨1, 1, 0⟩⟩,
        ⟨"s9", "m", ⟨"A9", "e", "d"⟩, ⟨"A9", "e", "d"⟩, [⟨"f09.js", "modified", 1, 0, 4⟩], ⟨1, 1, 0⟩⟩,
        ⟨"sA", "m", ⟨"B1", "e", "d"⟩, ⟨"B1", "e", "d"⟩, [⟨"f10.js", "modified", 1, 0, 3⟩], ⟨1, 1, 0⟩⟩,
        ⟨"sB", "m", ⟨"B2", "e", "d"⟩, ⟨"B2", "e", "d"⟩, [⟨"f11.js", "modified", 1, 0, 2⟩], ⟨1, 1, 0⟩⟩] :
        List Commit)).length = 11 ∧
    (CommitController.getCommitStatistics
      ([⟨"s1", "m", ⟨"A1", "e", "d"⟩, ⟨"A1", "e", "d"⟩, [⟨"f01.js", "modified", 1, 0, 12⟩], ⟨1, 1, 0⟩⟩,
        ⟨"s2", "m", ⟨"A2", "e", "d"⟩, ⟨"A2", "e", "d"⟩, [⟨"f02.js", "modified", 1, 0, 11⟩], ⟨1, 1, 0⟩⟩,
        ⟨"s3", "m", ⟨"A3", "e", "d"⟩, ⟨"A3", "e", "d"⟩, [⟨"f03.js", "modified", 1, 0, 10⟩], ⟨1, 1, 0⟩⟩,
        ⟨"s4", "m", ⟨"A4", "e", "d"⟩, ⟨"A4", "e", "d"⟩, [⟨"f04.js", "modified", 1, 0, 9⟩], ⟨1, 1, 0⟩⟩,
        ⟨"s5", "m", ⟨"A5", "e", "d"⟩, ⟨"A5", "e", "d"⟩, [⟨"f05.js", "modified", 1, 0, 8⟩], ⟨1, 1, 0⟩⟩,
        ⟨"s6", "m", ⟨"A6", "e", "d"⟩, ⟨"A6", "e", "d"⟩, [⟨"f06.js", "modified", 1, 0, 7⟩], ⟨1, 1, 0⟩⟩,
        ⟨"s7", "m", ⟨"A7", "e", "d"⟩, ⟨"A7", "e", "d"⟩, [⟨"f07.js", "modified", 1, 0, 6⟩], ⟨1, 1, 0⟩⟩,
        ⟨"s8", "m", ⟨"A8", "e", "d"⟩, ⟨"A8", "e", "d"⟩, [⟨"f08.js", "modified", 1, 0, 5⟩], ⟨1, 1, 0⟩⟩,
        ⟨"s9", "m", ⟨"A9", "e", "d"⟩, ⟨"A9", "e", "d"⟩, [⟨"f09.js", "modified", 1, 0, 4⟩], ⟨1, 1, 0⟩⟩,
        ⟨"sA", "m", ⟨"B1", "e", "d"⟩, ⟨"B1", "e", "d"⟩, [⟨"f10.js", "modified", 1, 0, 3⟩], ⟨1, 1, 0⟩⟩,
        ⟨"sB", "m", ⟨"B2", "e", "d"⟩, ⟨"B2", "e", "d"⟩, [⟨"f11.js", "modified", 1, 0, 2⟩], ⟨1, 1, 0⟩⟩] :
        List Commit)).topContributors.length = 5 := by
  refine ⟨?_, ?_, ?_⟩ <;> decide

/-- C3 amended: `getCommitStatistics` ranks `topContributors` by
descending commit count and `fileStatistics` by descending total changes,
but truncates them to the top 5 and the top 10 inside the aggregation
itself; the untruncated rollup lives in `Report.getFileStatistics`, whose
key sequence covers every distinct touched filename. -/
theorem c3_aggregation (commits : List Commit) :
    (CommitController.getCommitStatistics commits).topContributors.Pairwise
      (fun a b => b.commits ≤ a.commits) ∧
    (CommitController.getCommitStatistics commits).fileStatistics.Pairwise
      (fun a b => b.changes ≤ a.changes) ∧
    (CommitController.getCommitStatistics commits).topContributors
      = Report.getTopContributors commits 5 ∧
    (CommitController.getCommitStatistics commits).fileStatistics
      = (Report.getFileStatistics commits).take 10 ∧
    (CommitController.getCommitStatistics commits).topContributors.length ≤ 5 ∧
    (CommitController.getCommitStatistics commits).fileStatistics.length ≤ 10 ∧
    ((Report.getFileStatistics commits).map FileStat.filename).Perm
      (firstDedup ((commits.flatMap fun c => c.files).map FileChange.filename)) := by
  have hsc : (sortContributors (collectContributors commits)).Pairwise
      (fun a b => b.commits ≤ a.commits) :=
    List.sorted_insertionSort _ _
  have hsf : (sortFileStats (collectFileStats commits)).Pairwise
      (fun a b => b.changes ≤ a.changes) :=
    List.sorted_insertionSort _ _
  refine ⟨?_, ?_, ?_, ?_, ?_, ?_, report_fileStats_names_perm commits⟩
  · rw [CommitController.getCommitStatistics]
    split
    · exact List.Pairwise.nil
    · exact hsc.sublist (List.take_sublist _ _)
  · rw [CommitController.getCommitStatistics]
    split
    · exact List.Pairwise.nil
    · exact hsf.sublist (List.take_sublist _ _)
  · rw [CommitController.getCommitStatistics, Report.getTopContributors]
    split
    · rename_i hempty
      rw [List.isEmpty_iff] at hempty
      rw [hempty]
      rfl
    · rfl
  · rw [CommitController.getCommitStatistics, Report.getFileStatistics]
    split
    · rename_i hempty
      rw [List.isEmpty_iff] at hempty
      rw [hempty]
      rfl
    · rfl
  · rw [CommitController.getCommitStatistics]
    split
    · simp
    · simp
  · rw [CommitController.getCommitStatistics]
    split
    · simp
    · simp

/-! ## C1 — failure policy of the pagination pipelines -/

/-- C1 counterexample: in `GitHubService.getCommits` (per_page 2, ample
fuel), a page of exactly two SHAs with one failing detail fetch does not
yield one commit with pagination continuing — the whole call fails hard;
and a failed listing of the second page does not return the two commits
accumulated from the first page — it also fails hard. -/
theorem c1_failure_policy_counterexample :
    GitHubService.getCommitsLoop (fun p => if p = 1 then .ok ["a", "b"] else .ok [])
      (fun sha => if sha = "b" then .error "boom"
        else .ok ⟨sha, "m", ⟨"A", "e", "d"⟩, ⟨"A", "e", "d"⟩, [], ⟨0, 0, 0⟩⟩) 2 5 1 []
      = .error "Error fetching commits: Error fetching commit details for b: boom" ∧
    GitHubService.getCommitsLoop (fun p => if p = 1 then .ok ["a", "b"] else .error "down")
      (fun sha => .ok ⟨sha, "m", ⟨"A", "e", "d"⟩, ⟨"A", "e", "d"⟩, [], ⟨0, 0, 0⟩⟩) 2 5 1 []
      = .error "Error fetching commits: down" := by
  constructor <;> decide

/-- Inside `GitHubService.getCommits`, the sequential detail loop turns
the first failing detail fetch into an escaping exception. -/
theorem detailLoop_error (detail : String → Except String Commit) (bad : String)
    (e : String) (post : List String) (hbad : detail bad = .error e) :
    ∀ pre : List String, (∀ s ∈ pre, ∃ c, detail s = .ok c) →
    GitHubService.detailLoop detail (pre ++ bad :: post) =
      .error ("Error fetching commit details for " ++ bad ++ ": " ++ e) := by
  intro pre
  induction pre with
  | nil =>
    intro _
    rw [List.nil_append, GitHubService.detailLoop, GitHubService.getCommitDetails, hbad]
  | cons s rest ih =>
    intro hok
    obtain ⟨c, hc⟩ := hok s (List.mem_cons_self s rest)
    rw [List.cons_append, GitHubService.detailLoop, GitHubService.getCommitDetails, hc,
        ih (fun x hx => hok x (List.mem_cons_of_mem s hx))]

/-- `filterMap` over a list on which the function is everywhere `some`
preserves the length. -/
theorem filterMap_length_all_some {α β : Type} (f : α → Option β) :
    ∀ l : List α, (∀ s ∈ l, ∃ c, f s = some c) → (l.filterMap f).length = l.length := by
  intro l
  induction l with
  | nil => intro _; rfl
  | cons s rest ih =>
    intro hok
    obtain ⟨c, hc⟩ := hok s (List.mem_cons_self s rest)
    rw [List.filterMap_cons, hc, List.length_cons,
        ih (fun x hx => hok x (List.mem_cons_of_mem s hx)), List.length_cons]

/-- C1 amended: the claimed failure policy holds for the pagination loop
of `QuickGitHubCommitReporter.getCommitsForDate` but not for
`GitHubService.getCommits`.  (i) In the quick reporter, a full page with
one failing detail fetch drops exactly that commit (per_page - 1 survive)
and pagination continues to the next page; (ii) in the quick reporter, a
failed page listing stops pagination and returns the commits accumulated
so far; (iii) in `GitHubService.getCommits`, a failing detail fetch on a
listed page is re-thrown as a hard `Error fetching commits` failure; and
(iv) so is a failed page listing, discarding the accumulation. -/
theorem c1_failure_policy (listPage : Nat → Except String (List String))
    (detail : String → Except String Commit) (perPage fuel page : Nat)
    (acc : List Commit) (pre post : List String) (bad : String) (e : String) :
    (listPage page = .ok (pre ++ bad :: post) →
     (pre ++ bad :: post).length = perPage →
     (∀ s ∈ pre ++ bad :: post, s ≠ bad → ∃ c, detail s = .ok c) →
     detail bad = .error e →
     (QuickReporter.getCommitsLoop listPage detail perPage (fuel + 1) page acc =
       QuickReporter.getCommitsLoop listPage detail perPage fuel (page + 1)
         (acc ++ (pre ++ bad :: post).filterMap (QuickReporter.getCommitDetails detail)) ∧
      (bad ∉ pre → bad ∉ post →
        ((pre ++ bad :: post).filterMap (QuickReporter.getCommitDetails detail)).length
          = perPage - 1))) ∧
    (listPage page = .error e →
     QuickReporter.getCommitsLoop listPage detail perPage (fuel + 1) page acc = acc) ∧
    (listPage page = .ok (pre ++ bad :: post) →
     (∀ s ∈ pre, ∃ c, detail s = .ok c) →
     detail bad = .error e →
     GitHubService.getCommitsLoop listPage detail perPage (fuel + 1) page acc =
       .error ("Error fetching commits: Error fetching commit details for " ++ bad ++ ": " ++ e)) ∧
    (listPage page = .error e →
     GitHubService.getCommitsLoop listPage detail perPage (fuel + 1) page acc =
       .error ("Error fetching commits: " ++ e)) := by
  refine ⟨?_, ?_, ?_, ?_⟩
  · intro hlist hlen hok hbad
    have hne : (pre ++ bad :: post).isEmpty = false := by
      rcases pre with _ | ⟨a, t⟩ <;> rfl
    have hnl : ¬ (pre ++ bad :: post).length < perPage := by
      rw [hlen]; exact Nat.lt_irrefl _
    constructor
    · rw [QuickReporter.getCommitsLoop, hlist]
      simp only [hne, Bool.false_eq_true, if_false, if_neg hnl]
    · intro hnp hnp2
      have hlenfm : ((pre ++ bad :: post).filterMap
          (QuickReporter.getCommitDetails detail)).length = pre.length + post.length := by
        rw [List.filterMap_append, List.filterMap_cons, List.length_append]
        have hbadnone : QuickReporter.getCommitDetails detail bad = none := by
          rw [QuickReporter.getCommitDetails, hbad]; rfl
        rw [hbadnone]
        have h1 : (pre.filterMap (QuickReporter.getCommitDetails detail)).length
            = pre.length := by
          apply filterMap_length_all_some
          intro s hs
          obtain ⟨c, hc⟩ := hok s (List.mem_append_left _ hs) (fun hsb => hnp (hsb ▸ hs))
          exact ⟨c, by rw [QuickReporter.getCommitDetails, hc]; rfl⟩
        have h2 : (post.filterMap (QuickReporter.getCommitDetails detail)).length
            = post.length := by
          apply filterMap_length_all_some
          intro s hs
          obtain ⟨c, hc⟩ := hok s (List.mem_append_right _ (List.mem_cons_of_mem bad hs))
            (fun hsb => hnp2 (hsb ▸ hs))
          exact ⟨c, by rw [QuickReporter.getCommitDetails, hc]; rfl⟩
        rw [h1, h2]
      rw [hlenfm, ← hlen]
      simp [List.length_append, List.length_cons]
  · intro hlist
    rw [QuickReporter.getCommitsLoop, hlist]
  · intro hlist hok hbad
    rw [GitHubService.getCommitsLoop, hlist]
    have hne : (pre ++ bad :: post).isEmpty = false := by
      rcases pre with _ | ⟨a, t⟩ <;> rfl
    simp only [hne, Bool.false_eq_true, if_false]
    rw [detailLoop_error detail bad e post hbad pre hok]
    rfl
  · intro hlist
    rw [GitHubService.getCommitsLoop, hlist]

/-- C1 witness: the four clauses instantiated with concrete two-item
pages, a failing `b` detail fetch and a failing page listing. -/
theorem c1_failure_policy_witness :
    (QuickReporter.getCommitsLoop
        (fun p => if p = 1 then .ok ["a", "b"] else .ok [])
        (fun sha => if sha = "b" then .error "boom"
          else .ok ⟨"a", "m", ⟨"A", "e", "d"⟩, ⟨"A", "e", "d"⟩, [], ⟨0, 0, 0⟩⟩) 2 4 1 [] =
      QuickReporter.getCommitsLoop
        (fun p => if p = 1 then .ok ["a", "b"] else .ok [])
        (fun sha => if sha = "b" then .error "boom"
          else .ok ⟨"a", "m", ⟨"A", "e", "d"⟩, ⟨"A", "e", "d"⟩, [], ⟨0, 0, 0⟩⟩) 2 3 2
        ([] ++ (["a"] ++ "b" :: []).filterMap (QuickReporter.getCommitDetails
          (fun sha => if sha = "b" then .error "boom"
            else .ok ⟨"a", "m", ⟨"A", "e", "d"⟩, ⟨"A", "e", "d"⟩, [], ⟨0, 0, 0⟩⟩))) ∧
     ((["a"] ++ "b" :: []).filterMap (QuickReporter.getCommitDetails
          (fun sha => if sha = "b" then .error "boom"
            else .ok ⟨"a", "m", ⟨"A", "e", "d"⟩, ⟨"A", "e", "d"⟩, [], ⟨0, 0, 0⟩⟩))).length
        = 2 - 1) ∧
    QuickReporter.getCommitsLoop (fun _ : Nat => (.error "down" : Except String (List String)))
      (fun sha => if sha = "b" then .error "boom"
        else .ok ⟨"a", "m", ⟨"A", "e", "d"⟩, ⟨"A", "e", "d"⟩, [], ⟨0, 0, 0⟩⟩) 2 4 1 [] = [] ∧
    GitHubService.getCommitsLoop
      (fun p => if p = 1 then .ok ["a", "b"] else .ok [])
      (fun sha => if sha = "b" then .error "boom"
        else .ok ⟨"a", "m", ⟨"A", "e", "d"⟩, ⟨"A", "e", "d"⟩, [], ⟨0, 0, 0⟩⟩) 2 4 1 [] =
      .error ("Error fetching commits: Error fetching commit details for " ++ "b" ++ ": " ++ "boom") ∧
    GitHubService.getCommitsLoop (fun _ : Nat => (.error "down" : Except String (List String)))
      (fun sha => if sha = "b" then .error "boom"
        else .ok ⟨"a", "m", ⟨"A", "e", "d"⟩, ⟨"A", "e", "d"⟩, [], ⟨0, 0, 0⟩⟩) 2 4 1 [] =
      .error ("Error fetching commits: " ++ "down") := by
  have hA := c1_failure_policy
    (fun p => if p = 1 then .ok ["a", "b"] else .ok [])
    (fun sha => if sha = "b" then .error "boom"
      else .ok ⟨"a", "m", ⟨"A", "e", "d"⟩, ⟨"A", "e", "d"⟩, [], ⟨0, 0, 0⟩⟩)
    2 3 1 [] ["a"] [] "b" "boom"
  have hB := c1_failure_policy
    (fun _ : Nat => (.error "down" : Except String (List String)))
    (fun sha => if sha = "b" then .error "boom"
      else .ok ⟨"a", "m", ⟨"A", "e", "d"⟩, ⟨"A", "e", "d"⟩, [], ⟨0, 0, 0⟩⟩)
    2 3 1 [] ["a"] [] "b" "down"
  have hok1 := hA.1 (by decide) (by decide)
    (by
      intro s hs hne
      fin_cases hs
      · exact ⟨_, rfl⟩
      · exact absurd rfl hne)
    (by decide)
  obtain ⟨hstep, hlen⟩ := hok1
  refine ⟨⟨hstep, hlen (by decide) (by decide)⟩, hB.2.1 rfl, ?_, hB.2.2.2 rfl⟩
  exact hA.2.2.1 (by decide)
    (by
      intro s hs
      fin_cases hs
      exact ⟨_, rfl⟩)
    (by decide)

/-! ## C6 — degenerate date range versus single-date retrieval -/

/-- C6 counterexample: with an upstream whose responses are fixed (it
answers the window ending the day after 2024-03-10 with one commit and
every other query with an empty page), the single-date operation for
2024-03-10 and the degenerate range (2024-03-10, 2024-03-10) return
different commit sets — they query different upstream windows. -/
theorem c6_degenerate_range_counterexample :
    GitHubService.getCommitsForDate
      (fun opts p => if opts.untilDate = some "2024-03-11" ∧ p = 1 then .ok ["c1"] else .ok [])
      (fun sha => .ok ⟨sha, "m", ⟨"A", "e", "2024-03-10T12:00:00Z"⟩,
        ⟨"A", "e", "2024-03-10T12:00:00Z"⟩, [], ⟨0, 0, 0⟩⟩)
      "2024-03-10" "main" none 5 ≠
    GitHubService.getCommitsForDateRange
      (fun opts p => if opts.untilDate = some "2024-03-11" ∧ p = 1 then .ok ["c1"] else .ok [])
      (fun sha => .ok ⟨sha, "m", ⟨"A", "e", "2024-03-10T12:00:00Z"⟩,
        ⟨"A", "e", "2024-03-10T12:00:00Z"⟩, [], ⟨0, 0, 0⟩⟩)
      "2024-03-10" "2024-03-10" "main" none 5 := by
  decide

/-- C6 amended: the single-date operation for `d` equals the range
operation on `(d, d + 1 day)`, while the degenerate range `(d, d)`
queries the upstream window ending at `d` itself; the two agree exactly
on upstreams that answer those two windows identically. -/
theorem c6_degenerate_range
    (upstream : GitHubService.CommitOptions → Nat → Except String (List String))
    (detail : String → Except String Commit) (d b : String) (author : Option String)
    (fuel : Nat) :
    GitHubService.getCommitsForDate upstream detail d b author fuel =
      GitHubService.getCommits upstream detail
        (GitHubService.rangeOptions d (addOneDayStr d) b author) fuel ∧
    GitHubService.getCommitsForDateRange upstream detail d d b author fuel =
      GitHubService.getCommits upstream detail (GitHubService.rangeOptions d d b author) fuel ∧
    (upstream (GitHubService.rangeOptions d d b author) =
        upstream (GitHubService.rangeOptions d (addOneDayStr d) b author) →
      GitHubService.getCommitsForDateRange upstream detail d d b author fuel =
        GitHubService.getCommitsForDate upstream detail d b author fuel) := by
  refine ⟨rfl, rfl, ?_⟩
  intro h
  rw [GitHubService.getCommitsForDateRange, GitHubService.getCommitsForDate,
      GitHubService.getCommitsForDateRange, GitHubService.getCommits,
      GitHubService.getCommits, h]

/-- C6 witness: on an upstream that ignores its query options, the
degenerate range and the single-date operation agree. -/
theorem c6_degenerate_range_witness :
    GitHubService.getCommitsForDateRange (fun _ _ => .ok []) (fun _ => .error "x")
      "2024-03-10" "2024-03-10" "main" none 3 =
    GitHubService.getCommitsForDate (fun _ _ => .ok []) (fun _ => .error "x")
      "2024-03-10" "main" none 3 :=
  (c6_degenerate_range (fun _ _ => .ok []) (fun _ => .error "x")
    "2024-03-10" "main" none 3).2.2 rfl

/-! ## C4 — text and markdown renderings agree modulo decoration -/

/-- Decoration stripping distributes over string concatenation. -/
theorem sd_append (a b : String) : sd (a ++ b) = sd a ++ sd b := by
  rw [sd, sd, sd, String.data_append, List.filter_append]

/-- Decoration stripping over a left fold of concatenations. -/
theorem sd_foldl_append (l : List String) : ∀ acc : String,
    sd (l.foldl (fun r s => r ++ s) acc) = sd acc ++ (l.map sd).flatten := by
  induction l with
  | nil => intro acc; simp
  | cons s rest ih =>
    intro acc
    rw [List.foldl_cons, ih, sd_append, List.map_cons, List.flatten_cons, List.append_assoc]

/-- Decoration stripping distributes over `String.join`. -/
theorem sd_joinStr (l : List String) : sd (String.join l) = (l.map sd).flatten := by
  rw [String.join, sd_foldl_append]
  simp [sd]

/-- The report header strips to the same content in both formats. -/
theorem sd_header (dr : String) :
    sd (ReportService.header dr "markdown") = sd (ReportService.header dr "text") := by
  rw [ReportService.header, ReportService.header]
  simp only [String.reduceEq, reduceIte]
  rw [sd_append, sd_append, sd_append, sd_append]
  congr 1

/-- A file line strips to the same content in both formats. -/
theorem sd_fileLine (f : FileChange) :
    sd (ReportService.fileLine "markdown" f) = sd (ReportService.fileLine "text" f) := by
  rw [ReportService.fileLine, ReportService.fileLine]
  simp only [String.reduceEq, reduceIte]
  simp only [sd_append]
  congr 1

/-- The changed-files section strips to the same content in both formats,
file by file in the same order. -/
theorem sd_filesSection (files : List FileChange) :
    sd (ReportService.filesSection "markdown" files)
      = sd (ReportService.filesSection "text" files) := by
  rw [ReportService.filesSection, ReportService.filesSection]
  by_cases h : files.isEmpty
  · simp [h]
  · have hf : files.isEmpty = false := by simpa using h
    simp only [hf, Bool.false_eq_true, if_false, String.reduceEq, reduceIte]
    rw [sd_append, sd_append, sd_append, sd_append, sd_joinStr, sd_joinStr,
        List.map_map, List.map_map]
    have hfun : (sd ∘ ReportService.fileLine "markdown") = sd ∘ ReportService.fileLine "text" :=
      funext sd_fileLine
    rw [hfun]
    have hlit : sd "**Changed Files:**\n" = sd "Changed Files:\n" := by decide
    rw [hlit]

/-- The 50-dash text separator and the `---` markdown separator both strip
to nothing. -/
theorem sd_separator :
    sd (ReportService.separatorLine "markdown") = sd (ReportService.separatorLine "text") := by
  decide

/-- The message/author/stats head of a commit block strips to the same
content in both formats. -/
theorem sd_head (fmtTime : String → String) (i : Nat) (c : Commit) :
    sd (ReportService.commitHeadBlock fmtTime "markdown" i c)
      = sd (ReportService.commitHeadBlock fmtTime "text" i c) := by
  rw [ReportService.commitHeadBlock, ReportService.commitHeadBlock]
  simp only [String.reduceEq, reduceIte]
  simp only [sd_append, List.append_assoc]
  congr 1

/-- A whole quick-report commit block strips identically in both formats. -/
theorem sd_quickBlock (fmtTime : String → String) (i : Nat) (c : Commit) :
    sd (ReportService.quickCommitBlock fmtTime "markdown" i c)
      = sd (ReportService.quickCommitBlock fmtTime "text" i c) := by
  rw [ReportService.quickCommitBlock, ReportService.quickCommitBlock,
      sd_append, sd_append, sd_append, sd_append,
      sd_head, sd_filesSection, sd_separator]

/-- The analysis section strips identically in both formats (the analysis
text itself is format-independent). -/
theorem sd_analysisSection (analyzer : Option (Commit → String)) (c : Commit) :
    sd (ReportService.analysisSection analyzer "markdown" c)
      = sd (ReportService.analysisSection analyzer "text" c) := by
  rw [ReportService.analysisSection.eq_def, ReportService.analysisSection.eq_def]
  simp only [String.reduceEq, reduceIte]
  rw [sd_append, sd_append, sd_append, sd_append]
  congr 1

/-- A whole enhanced-report commit block strips identically. -/
theorem sd_enhancedBlock (fmtTime : String → String) (analyzer : Option (Commit → String))
    (i : Nat) (c : Commit) :
    sd (ReportService.enhancedCommitBlock fmtTime analyzer "markdown" i c)
      = sd (ReportService.enhancedCommitBlock fmtTime analyzer "text" i c) := by
  rw [ReportService.enhancedCommitBlock, ReportService.enhancedCommitBlock,
      sd_append, sd_append, sd_append, sd_append, sd_append, sd_append,
      sd_head, sd_analysisSection, sd_filesSection, sd_separator]

/-- C4: for every commit list and date-range label, the text and markdown
renderings of both the quick and the enhanced report are generated by one
format-conditional pass and are equal after erasing the decoration
alphabet (heading `#`, bold/emphasis `*`, inline-code backtick, dashes
and layout whitespace) — in particular they enumerate the same commits
and the same files in the same order. -/
theorem c4_text_markdown_equal_modulo_decoration (fmtTime : String → String)
    (analyzer : Option (Commit → String)) (commits : List CommitData) (dateRange : String) :
    sd (ReportService.generateQuickReport fmtTime commits dateRange "markdown")
      = sd (ReportService.generateQuickReport fmtTime commits dateRange "text") ∧
    sd (ReportService.generateEnhancedReport fmtTime analyzer commits dateRange "markdown")
      = sd (ReportService.generateEnhancedReport fmtTime analyzer commits dateRange "text") := by
  constructor
  · rw [ReportService.generateQuickReport, ReportService.generateQuickReport]
    by_cases h : commits.isEmpty
    · simp [h]
    · have hf : commits.isEmpty = false := by simpa using h
      simp only [hf, Bool.false_eq_true, if_false]
      rw [sd_append, sd_append, sd_header, sd_joinStr, sd_joinStr,
          List.map_map, List.map_map]
      have hfun : (sd ∘ fun p : Nat × CommitData =>
            ReportService.quickCommitBlock fmtTime "markdown" p.1 (Commit.ofData p.2))
          = sd ∘ fun p : Nat × CommitData =>
            ReportService.quickCommitBlock fmtTime "text" p.1 (Commit.ofData p.2) := by
        funext p
        exact sd_quickBlock fmtTime p.1 (Commit.ofData p.2)
      rw [hfun]
  · rw [ReportService.generateEnhancedReport, ReportService.generateEnhancedReport]
    by_cases h : commits.isEmpty
    · simp [h]
    · have hf : commits.isEmpty = false := by simpa using h
      simp only [hf, Bool.false_eq_true, if_false]
      rw [sd_append, sd_append, sd_header, sd_joinStr, sd_joinStr,
          List.map_map, List.map_map]
      have hfun : (sd ∘ fun p : Nat × CommitData =>
            ReportService.enhancedCommitBlock fmtTime analyzer "markdown" p.1 (Commit.ofData p.2))
          = sd ∘ fun p : Nat × CommitData =>
            ReportService.enhancedCommitBlock fmtTime analyzer "text" p.1 (Commit.ofData p.2) := by
        funext p
        exact sd_enhancedBlock fmtTime analyzer p.1 (Commit.ofData p.2)
      rw [hfun]
